import Mathlib

/-!
Shallow embedding of `rtsrc/gen_bindings.py` (the native-binding code
generator of the wrenc repository) and verification of its specification.

Python strings are modelled as `List Char`; Python exceptions as an
explicit error type threaded through `Except`.  All definitions are
translated directly from the source file; line numbers in doc comments
refer to `src/rtsrc/gen_bindings.py`.
-/

deriving instance DecidableEq for Except

namespace GenBindings

/-- A Python string, modelled as its list of characters. -/
abbrev Str := List Char

/-- Shorthand turning a Lean string literal into the `Str` model. -/
def lit (s : String) : Str := s.data

/-- Python exceptions that `gen_bindings.py` can raise: an explicit
`raise Exception(msg)`, an `IndexError` (e.g. `list.pop()` on an empty
list or `s[0]` on an empty string), and an `AttributeError`
(attribute access on `None`). -/
inductive PyError where
  | exc : Str → PyError
  | indexErr : PyError
  | attributeErr : PyError
deriving DecidableEq

/-- Characters matched by the regex class `\s` (ASCII range, which is all
the generator inputs use). -/
def isPySpace (c : Char) : Bool :=
  c = ' ' || c = '\t' || c = '\n' || c = '\r' || c = '\x0b' || c = '\x0c'

/-- Characters matched by the regex class `\w` (ASCII range). -/
def isWordChar (c : Char) : Bool := c.isAlphanum || c = '_'

/-- Python `str.strip()` with no argument: remove leading and trailing
whitespace. -/
def pyStrip (s : Str) : Str :=
  ((s.dropWhile isPySpace).reverse.dropWhile isPySpace).reverse

/-- Python `str.split(c)` for a one-character separator. -/
def splitOnChar (c : Char) : Str → List Str
  | [] => [[]]
  | x :: xs =>
    match splitOnChar c xs with
    | [] => [[x]]
    | y :: ys => if x = c then [] :: y :: ys else (x :: y) :: ys

/-- Python `line.split("//")[0]`: everything before the first `//`. -/
def takeBefore2Slash : Str → Str
  | [] => []
  | '/' :: '/' :: _ => []
  | c :: cs => c :: takeBefore2Slash cs

/-- Python `sep.join(xs)`. -/
def joinSep (sep : Str) : List Str → Str
  | [] => []
  | [x] => x
  | x :: y :: ys => x ++ sep ++ joinSep sep (y :: ys)

/-- Python `str.capitalize()`: first character upper-cased, the rest
lower-cased. -/
def pyCapitalize (s : Str) : Str :=
  match s with
  | [] => []
  | c :: cs => c.toUpper :: cs.map Char.toLower

/-- Decimal rendering of a natural number, as Python `str(n)`. -/
def natToStr (n : Nat) : Str := Nat.toDigits 10 n

/-- The string of `n` comma-separated placeholders used for signature placeholders. -/
def underscores (n : Nat) : Str := joinSep (lit ",") (List.replicate n (lit "_"))

/-- Reserved operator-method name prefix (`OPERATOR_PREFIX`, line 15). -/
def opNamePre : Str := lit "Operator"

/-- The fixed operator-symbol table `OPERATOR_TYPES` (lines 16-40). -/
def OPERATOR_TYPES : List (Str × Str) :=
  [ (lit "Plus", lit "+"), (lit "Minus", lit "-"), (lit "Multiply", lit "*"),
    (lit "Divide", lit "/"), (lit "Modulo", lit "%"), (lit "And", lit "&"),
    (lit "Or", lit "|"), (lit "XOr", lit "^"), (lit "LeftShift", lit "<<"),
    (lit "RightShift", lit ">>"), (lit "EqualTo", lit "=="),
    (lit "NotEqual", lit "!="), (lit "LessThan", lit "<"),
    (lit "LessThanEq", lit "<="), (lit "GreaterThan", lit ">"),
    (lit "GreaterThanEq", lit ">="), (lit "BoolNegate", lit "!"),
    (lit "BitwiseNegate", lit "~"), (lit "DotDot", lit ".."),
    (lit "DotDotDot", lit "...") ]

/-- `OPERATOR_SUBSCRIPT` (line 41). -/
def OPERATOR_SUBSCRIPT : Str := lit "OperatorSubscript"

/-- `OPERATOR_SUBSCRIPT_SET` (line 42). -/
def OPERATOR_SUBSCRIPT_SET : Str := lit "OperatorSubscriptSet"

/-- `NUMBER_CLASS` (line 43). -/
def NUMBER_CLASS : Str := lit "ObjNumClass"

/-- `NULL_CLASS` (line 44). -/
def NULL_CLASS : Str := lit "ObjNull"

/-- The `Arg` dataclass (lines 53-64). -/
structure Arg where
  type : Str
  name : Str
  pos : Nat
  error_name : Option Str
deriving DecidableEq

/-- `Arg.raw_name` (lines 60-61). -/
def Arg.raw_name (a : Arg) : Str := lit "arg" ++ natToStr a.pos

/-- `Arg.typed_name` (lines 63-64). -/
def Arg.typed_name (a : Arg) : Str := lit "typedArg" ++ natToStr a.pos

/-- The `Method` dataclass (lines 67-123).  The Python `parent_class`
field is a back-reference to the owning `Class` object; the source only
ever reads `parent_class.name`, so the model stores that name. -/
structure Method where
  return_type : Str
  name : Str
  args : List Arg
  static : Bool
  special_type : Str
  parent_class : Str
deriving DecidableEq

/-- `Method.arity` (lines 76-85): the declared-argument count, minus one
for non-static methods of the number class; raising when that would go
negative. -/
def Method.arity (m : Method) : Except PyError Nat :=
  let count := m.args.length
  if m.parent_class = NUMBER_CLASS ∧ m.static = false then
    if count = 0 then
      .error (.exc (lit "Missing number class receiver for " ++ m.name))
    else .ok (count - 1)
  else .ok count

/-- `Method.signature` (lines 87-120).  Note the Python computes
`arg_part` (hence `arity()`) first, then handles the two subscript
names, then the operator table, then first-letter lower-casing (an
`IndexError` on an empty name), then the getter / plain split.
For the setter `num_args -= 1`, Python `["_"] * -1` is the empty
list, which truncated `Nat` subtraction reproduces. -/
def Method.signature (m : Method) : Except PyError Str := do
  let ar ← m.arity
  let arg_part := underscores ar
  if m.name = OPERATOR_SUBSCRIPT ∨ m.name = OPERATOR_SUBSCRIPT_SET then
    let setter := m.name = OPERATOR_SUBSCRIPT_SET
    let num_args := if setter then ar - 1 else ar
    let index_part := underscores num_args
    if setter then
      pure (lit "[" ++ index_part ++ lit "]=(_)")
    else
      pure (lit "[" ++ index_part ++ lit "]")
  else do
    let nm ← (if opNamePre.isPrefixOf m.name then
        match OPERATOR_TYPES.lookup (m.name.drop opNamePre.length) with
        | none => Except.error (.exc (lit "Invalid operator name " ++
            m.parent_class ++ lit "::" ++ m.name))
        | some sym => Except.ok sym
      else Except.ok m.name)
    match nm with
    | [] => Except.error .indexErr
    | c :: rest =>
      let nm2 := c.toLower :: rest
      if m.special_type = lit "getter" then pure nm2
      else pure (nm2 ++ lit "(" ++ arg_part ++ lit ")")

/-- `Method.method_name` (lines 122-123). -/
def Method.method_name (m : Method) : Except PyError Str := do
  let ar ← m.arity
  pure (lit "binding_" ++ m.parent_class ++ lit "_" ++ m.name ++ lit "_" ++ natToStr ar)

/-- The `Class` dataclass (lines 126-129). -/
structure Class where
  name : Str
  methods : List Method
deriving DecidableEq

/-- The span of a character predicate: the maximal matching run and the
rest.  Used for deterministic pieces of the regex matchers (a greedy
`X*` run whose character class is disjoint from what must follow). -/
def spanP (p : Char → Bool) (s : Str) : Str × Str := (s.takeWhile p, s.dropWhile p)

/-- Match a literal piece of a regex: if `pre` is a prefix of `s`,
return the rest of `s`. -/
def dropLit (pre : Str) (s : Str) : Option Str :=
  if pre.isPrefixOf s then some (s.drop pre.length) else none

/-- The result of a successful `METHOD_REGEX` match (line 7-9): the five
named groups.  `stat_virt` is `none` when the optional qualifier group
did not participate in the match. -/
structure MethodMatch where
  type : Str
  stat_virt : Option Str
  ret : Str
  name : Str
  args : Str
deriving DecidableEq

/-- `CLASS_REGEX.match` (line 10): `^class\s+(?P<name>Obj\w*)\s+[:\x7b]`,
returning the `name` group.  Each greedy run here is followed by a
disjoint character class, so maximal runs are exact. -/
def classMatch (line : Str) : Option Str := do
  let s ← dropLit (lit "class") line
  let (sp, s) := spanP isPySpace s
  if sp = [] then none else do
  let s ← dropLit (lit "Obj") s
  let (w, s) := spanP isWordChar s
  let (sp2, s) := spanP isPySpace s
  if sp2 = [] then none else
  match s with
  | c :: _ => if c = ':' ∨ c = '\x7b' then some (lit "Obj" ++ w) else none
  | [] => none

/-- Tail of `METHOD_REGEX` after the closing argument parenthesis:
`(?:\s+const)?\s*;$`. -/
def methodTailOk (s : Str) : Bool :=
  let noConst : Str → Bool := fun t => t.dropWhile isPySpace = [';']
  let constBr :=
    let (sp, t) := spanP isPySpace s
    sp ≠ [] && (match dropLit (lit "const") t with
                | some t2 => noConst t2
                | none => false)
  constBr || noConst s

/-- The `(?P<args>.*)\)(?:\s+const)?\s*;$` part of `METHOD_REGEX`:
greedy, so the split is at the last `)` whose tail matches. -/
def matchArgsTail (ty : Str) (sv : Option Str) (retG nm s : Str) :
    Option MethodMatch :=
  ((List.range s.length).reverse.findSome? (fun k =>
    match s.drop k with
    | ')' :: rest =>
      if methodTailOk rest && (s.take k).all (fun c => c ≠ '\n') then
        some (s.take k)
      else none
    | _ => none)).map (fun argsG => ⟨ty, sv, retG, nm, argsG⟩)

/-- The part of `METHOD_REGEX` from the `return` group on:
`(?P<return>[\w*:]+\s+\**)(?P<name>\w+)\s*\((?P<args>.*)\)...`.
Every greedy run is followed by a disjoint class, so maximal runs are
faithful to the backtracking engine. -/
def afterQual (ty : Str) (sv : Option Str) (s : Str) : Option MethodMatch :=
  let (rw, s) := spanP (fun c => isWordChar c || c = '*' || c = ':') s
  if rw = [] then none else
  let (sp, s) := spanP isPySpace s
  if sp = [] then none else
  let (stars, s) := spanP (fun c => c = '*') s
  let retG := rw ++ sp ++ stars
  let (nm, s) := spanP isWordChar s
  if nm = [] then none else
  let (_, s) := spanP isPySpace s
  match s with
  | '(' :: s => matchArgsTail ty sv retG nm s
  | _ => none

/-- One alternative of the optional qualifier group
`(?P<stat_virt>static\s+|virtual\s+)?`: the matched group text includes
the trailing whitespace, as in Python. -/
def tryQual (q : Str) (ty : Str) (s : Str) : Option MethodMatch := do
  let s1 ← dropLit q s
  let (sp, s2) := spanP isPySpace s1
  if sp = [] then none else afterQual ty (some (q ++ sp)) s2

/-- `METHOD_REGEX.match` (lines 7-9, 151).  The qualifier alternatives
are tried in the engine order: `static\s+`, then `virtual\s+`, then
the group absent. -/
def methodMatch (line : Str) : Option MethodMatch :=
  let s := line.dropWhile isPySpace
  match dropLit (lit "WREN_METHOD(") s with
  | none => none
  | some s =>
    let (ty, s) := spanP (fun c => c ≠ ')') s
    match s with
    | ')' :: s =>
      let (sp, s) := spanP isPySpace s
      if sp = [] then none
      else
        (tryQual (lit "static") ty s).orElse (fun _ =>
          (tryQual (lit "virtual") ty s).orElse (fun _ =>
            afterQual ty none s))
    | _ => none

/-- `ARG_INFO_REGEX.match` (line 12): `^\s*ARG\("(?P<error_name>[^"]+)"\)`.
Returns `(group(0), error_name)`: the whole matched text (which the
source removes with `removeprefix`) and the label group. -/
def argInfoMatch (s : Str) : Option (Str × Str) := do
  let (sp, t) := spanP isPySpace s
  let t ← dropLit (lit "ARG(\"") t
  let (label, t) := spanP (fun c => c ≠ '"') t
  if label = [] then none else do
  let _ ← dropLit (lit "\")") t
  pure (sp ++ lit "ARG(\"" ++ label ++ lit "\")", label)

/-- Inner part of `ARG_REGEX` once the leading-whitespace count and the
length `L` taken by the greedy `.+` are fixed:
`(.+\s[*&]*)(\w+)\s*$`.  Returns the `type` and `name` groups. -/
def argMatchInner (r : Str) (L : Nat) : Option (Str × Str) :=
  let body := r.take L
  if body.all (fun c => c ≠ '\n') then
    match r.drop L with
    | c :: rest =>
      if isPySpace c then
        let (stars, rest) := spanP (fun c => c = '*' || c = '&') rest
        let (nm, rest) := spanP isWordChar rest
        if nm = [] then none
        else if rest.dropWhile isPySpace = [] then some (body ++ [c] ++ stars, nm)
        else none
      else none
    | [] => none
  else none

/-- `ARG_REGEX.match` (line 11): `^\s*(?P<type>.+\s[*&]*)(?P<name>\w+)\s*$`.
Both `\s*` and `.+` are greedy and can genuinely backtrack here, so all
split points are tried in the engine order: maximal leading
whitespace first, and within it the longest `.+` first. -/
def argMatch (s : Str) : Option (Str × Str) :=
  let maxSp := (s.takeWhile isPySpace).length
  (List.range (maxSp + 1)).reverse.findSome? (fun i =>
    let r := s.drop i
    (List.range r.length).reverse.findSome? (fun l => argMatchInner r (l + 1)))

/-- The loop state of `parse_file` (lines 132-135): the classes already
pushed, and the class currently being filled (`current_class`, which in
Python is aliased inside the list and mutated in place). -/
structure ParseState where
  done : List Class
  current : Option Class
deriving DecidableEq

/-- Closing the state: the Python `classes` list is the opened classes in
order, each carrying the methods accumulated while it was current. -/
def ParseState.finish (st : ParseState) : List Class :=
  st.done ++ (match st.current with | some c => [c] | none => [])

/-- Parsing of one argument piece of the split argument list
(lines 176-194).  `current` is needed because the error message for an
unmatched argument reads `current_class.name`, an `AttributeError` when
no class is open yet. -/
def parseArgPiece (current : Option Class) (mname : Str) (acc : List Arg)
    (piece : Str) : Except PyError (List Arg) :=
  let (piece, error_name) :=
    match argInfoMatch piece with
    | some (g0, label) => (pyStrip (piece.drop g0.length), some label)
    | none => (piece, none)
  match argMatch piece with
  | none =>
    (match current with
     | none => .error .attributeErr
     | some c => .error (.exc (lit "Could not match arguments for method " ++
         c.name ++ lit "::" ++ mname ++ lit ": \x27" ++ piece ++ lit "\x27")))
  | some (tyG, nmG) =>
    .ok (acc ++ [⟨tyG.filter (fun c => c ≠ ' '), nmG, acc.length, error_name⟩])

/-- Processing of one input line by `parse_file` (lines 137-202). -/
def parseLine (st : ParseState) (raw : Str) : Except PyError ParseState :=
  let line := pyStrip (takeBefore2Slash raw)
  if line = [] then .ok st
  else match classMatch line with
  | some nm =>
    .ok ⟨st.finish, some ⟨nm, []⟩⟩
  | none =>
    match methodMatch line with
    | none => .ok st
    | some md =>
      let return_type := md.ret.filter (fun c => c ≠ ' ')
      let name := md.name
      let static := (md.stat_virt.map pyStrip) = some (lit "static")
      let special_type := md.type
      if special_type = [] ∨ special_type = lit "getter" ∨
          special_type = lit "variadic" then do
        let args0 ←
          if md.args = [] then pure []
          else (splitOnChar ',' md.args).foldlM (parseArgPiece st.current name) []
        let args1 ←
          if special_type = lit "variadic" then
            match args0.getLast? with
            | none => Except.error PyError.indexErr
            | some _ => Except.ok args0.dropLast
          else Except.ok args0
        match st.current with
        | none => Except.error .attributeErr
        | some c =>
          let meth : Method := ⟨return_type, name, args1, static, special_type, c.name⟩
          Except.ok ⟨st.done, some { c with methods := c.methods ++ [meth] }⟩
      else
        (match st.current with
         | none => .error .attributeErr
         | some c => .error (.exc (lit "Invalid special type \x27" ++ special_type ++
             lit "\x27 for method " ++ c.name ++ lit "::" ++ name)))

/-- `parse_file` (lines 132-204), over the file list of lines. -/
def parse_file (lines : List Str) : Except PyError (List Class) := do
  let st ← lines.foldlM parseLine ⟨[], none⟩
  pure st.finish

/-- The `receiver_def` computation of the emitter (lines 230-234):
`"Value receiver"`, overwritten with the empty string exactly for
non-static methods of the number class. -/
def receiver_def (clsName : Str) (m : Method) : Str :=
  if clsName = NUMBER_CLASS ∧ m.static = false then [] else lit "Value receiver"

/-- The declared-argument part of the trampoline parameter list
(lines 236-241), given the receiver part: one `Value argN` per declared
argument, a separating comma when both parts are nonempty, and the
trailing `initializer_list` parameter for variadic methods. -/
def args_str (m : Method) (recv : Str) : Str :=
  let base := joinSep (lit ", ") (m.args.map (fun a => lit "Value " ++ a.raw_name))
  let base := if base ≠ [] ∧ recv ≠ [] then lit ", " ++ base else base
  if m.special_type = lit "variadic" then
    base ++ lit ", const std::initializer_list<Value> &var_args"
  else base

/-- The full parameter list of the generated trampoline (line 244):
`{receiver_def}{args_str}`. -/
def trampoline_params (clsName : Str) (m : Method) : Str :=
  receiver_def clsName m ++ args_str m (receiver_def clsName m)

/-- Receiver-resolution lines of the trampoline body (lines 251-254). -/
def receiver_lines (clsName : Str) (m : Method) (debug_sig : Str) : List Str :=
  if clsName = NULL_CLASS then
    [lit "\t" ++ clsName ++ lit " *obj = nullptr;\n"]
  else if m.static = false ∧ clsName ≠ NUMBER_CLASS then
    [lit "\t" ++ clsName ++ lit " *obj = checkReceiver<" ++ clsName ++ lit ">(\"" ++
      debug_sig ++ lit "\", receiver);\n"]
  else []

/-- The diagnostic label used for an argument (lines 257-261): the
`ARG("...")` annotation when present, else the Python-`capitalize`d
argument name. -/
def argErrorName (a : Arg) : Str :=
  match a.error_name with
  | some e => e
  | none => pyCapitalize a.name

/-- The coercion expression for one declared argument (lines 263-278),
keyed on the declared type; `i` is the 0-based loop index. -/
def castExpr (debug_sig : Str) (i : Nat) (a : Arg) : Except PyError Str :=
  let error_name := argErrorName a
  if a.type = lit "Value" then .ok a.raw_name
  else if (lit "Obj").isPrefixOf a.type then
    let non_ptr := a.type.filter (fun c => c ≠ '*')
    .ok (lit "checkArg<" ++ non_ptr ++ lit ">(\"" ++ debug_sig ++ lit "\", \"" ++
      error_name ++ lit "\", " ++ natToStr (i + 1) ++ lit ", " ++ a.raw_name ++
      lit ", true)")
  else if a.type = lit "std::string" then
    .ok (lit "checkString(\"" ++ debug_sig ++ lit "\", \"" ++ error_name ++
      lit "\", " ++ natToStr (i + 1) ++ lit ", " ++ a.raw_name ++ lit ")")
  else if a.type = lit "double" then
    .ok (lit "checkDouble(\"" ++ debug_sig ++ lit "\", \"" ++ error_name ++
      lit "\", " ++ natToStr (i + 1) ++ lit ", " ++ a.raw_name ++ lit ")")
  else if a.type = lit "int" then
    .ok (lit "checkInt(\"" ++ debug_sig ++ lit "\", \"" ++ error_name ++
      lit "\", " ++ natToStr (i + 1) ++ lit ", " ++ a.raw_name ++ lit ")")
  else
    .error (.exc (lit "Unknown arg type \x27" ++ a.type ++
      lit "\x27 for method \x27" ++ debug_sig ++ lit "\x27"))

/-- The call statement of the trampoline body (lines 282-301),
including the optional `ret` capture: static methods call through the
class, number-class instance methods through the singleton accessor,
and all other instance methods through the resolved receiver. -/
def call_stmt (clsName : Str) (m : Method) : Str :=
  let typed_args := joinSep (lit ",")
    (m.args.map Arg.typed_name ++
      (if m.special_type = lit "variadic" then [lit "var_args"] else []))
  let capture := if m.return_type ≠ lit "void" then m.return_type ++ lit " ret = " else []
  let callee :=
    if m.static then clsName ++ lit "::" ++ m.name ++ lit "(" ++ typed_args ++ lit ");\n"
    else if clsName = NUMBER_CLASS then
      clsName ++ lit "::Instance()->" ++ m.name ++ lit "(" ++ typed_args ++ lit ");\n"
    else lit "obj->" ++ m.name ++ lit "(" ++ typed_args ++ lit ");\n"
  lit "\t" ++ capture ++ callee

/-- The return-value conversion (lines 303-318). -/
def return_value (m : Method) (debug_sig : Str) : Except PyError Str :=
  if m.return_type = lit "void" then .ok (lit "NULL_VAL")
  else if m.return_type = lit "Value" then .ok (lit "ret")
  else if m.return_type = lit "std::string" then
    .ok (lit "encode_object(ObjString::New(ret))")
  else if m.return_type = lit "bool" then
    .ok (lit "encode_object(ObjBool::Get(ret))")
  else if m.return_type = lit "int" ∨ m.return_type = lit "double" then
    .ok (lit "encode_number(ret)")
  else if (lit "Obj").isPrefixOf m.return_type then
    .ok (lit "encode_object(ret)")
  else
    .error (.exc (lit "Invalid return type " ++ m.return_type ++
      lit " for method " ++ debug_sig))

/-- The complete text of one generated trampoline (lines 229-321). -/
def trampoline_text (clsName : Str) (pre_entry_gc : Bool) (m : Method) :
    Except PyError Str := do
  let sig ← m.signature
  let debug_sig := clsName ++ lit "." ++ sig
  let mn ← m.method_name
  let castLines ← m.args.enum.mapM (fun p => do
    let e ← castExpr debug_sig p.1 p.2
    pure (lit "\t" ++ p.2.type ++ lit " " ++ p.2.typed_name ++ lit " = " ++ e ++
      lit ";\n"))
  let retVal ← return_value m debug_sig
  pure (lit "static Value " ++ mn ++ lit "(" ++ trampoline_params clsName m ++
    lit ") \x7b\n" ++
    (if pre_entry_gc then lit "\tWrenRuntime::Instance().RunGC();\n" else []) ++
    (receiver_lines clsName m debug_sig).flatten ++
    castLines.flatten ++
    call_stmt clsName m ++
    lit "\treturn " ++ retVal ++ lit ";\n" ++
    lit "\x7d\n")

/-- One fixed-arity forwarding wrapper of a variadic method
(lines 328-335), for `num` forwarded arguments. -/
def variadic_wrapper_text (m : Method) (num : Nat) : Except PyError Str := do
  let mn ← m.method_name
  let args := lit "Value r" ++
    ((List.range num).map (fun n => lit ",Value a" ++ natToStr n)).flatten
  let forward_args := joinSep (lit ",")
    ((List.range num).map (fun n => lit "a" ++ natToStr n))
  let body := lit "return " ++ mn ++ lit "(r, \x7b " ++ forward_args ++ lit " \x7d);"
  pure (lit "static Value " ++ mn ++ lit "_va" ++ natToStr num ++ lit "(" ++ args ++
    lit ") \x7b " ++ body ++ lit " \x7d\n")

/-- The 17 fixed-arity forwarding wrappers of a variadic method
(`for num in range(17)`, lines 328-335). -/
def variadic_wrappers (m : Method) : Except PyError (List Str) :=
  (List.range 17).mapM (variadic_wrapper_text m)

/-- A registration signature for a variadic method (lines 352-358): the
method signature with the closing bracket cut off, `num` extra
trailing placeholders (comma-separated against an existing trailing
placeholder) and the bracket put back.  `signature[-1]` on the empty
string is an `IndexError`, mirrored faithfully. -/
def reg_signature (m : Method) (num : Nat) : Except PyError Str := do
  let s ← m.signature
  let init := s.dropLast
  let withComma ←
    if num ≠ 0 then
      match init.getLast? with
      | none => Except.error PyError.indexErr
      | some c => Except.ok (if c = '_' then init ++ lit "," else init)
    else Except.ok init
  pure (withComma ++ underscores num ++ lit ")")

/-- The `(signature, symbol)` pairs the generated registration function
passes to `AddFunction` for one method once its gate is taken
(lines 344-362): one pair for a plain or getter method, 17 pairs for a
variadic method. -/
def method_reg_entries (m : Method) : Except PyError (List (Str × Str)) := do
  let mn ← m.method_name
  if m.special_type = lit "variadic" then
    (List.range 17).mapM (fun num => do
      let s ← reg_signature m num
      pure (s, mn ++ lit "_va" ++ natToStr num))
  else do
    let s ← m.signature
    pure [(s, mn)]

/-- Behaviour of the generated `register_{cls}` function (lines 337-364)
when called with a given `isMeta`: the `AddFunction` pairs actually
registered.  Each method block is guarded by `if (isMeta)` for static
methods and `if (!isMeta)` for the rest. -/
def register_class_entries (cls : Class) (isMeta : Bool) :
    Except PyError (List (Str × Str)) := do
  let ls ← cls.methods.mapM (fun m => do
    let gate := if m.static then isMeta else !isMeta
    if gate then method_reg_entries m else pure [])
  pure ls.flatten

/-- The text of the generated `register_{cls}` function (lines 337-364). -/
def register_fn_text (cls : Class) : Except PyError Str := do
  let body ← cls.methods.mapM (fun m => do
    let req := if m.static then lit "isMeta" else lit "!isMeta"
    let guard := lit "\tif (" ++ req ++ lit ")\n"
    if m.special_type ≠ lit "variadic" then do
      let s ← m.signature
      let mn ← m.method_name
      pure (guard ++ lit "\t\tcls->AddFunction(\"" ++ s ++ lit "\", (void*)" ++
        mn ++ lit ");\n")
    else do
      let mn ← m.method_name
      let inner ← (List.range 17).mapM (fun num => do
        let s ← reg_signature m num
        pure (lit "\t\tcls->AddFunction(\"" ++ s ++ lit "\", (void*)" ++ mn ++
          lit "_va" ++ natToStr num ++ lit ");\n"))
      pure (guard ++ lit "\t\x7b\n" ++ inner.flatten ++ lit "\t\x7d\n"))
  pure (lit "static void register_" ++ cls.name ++
    lit "(ObjClass *cls, bool isMeta) \x7b\n" ++ body.flatten ++ lit "\x7d\n")

/-- All generated text for one method (trampoline plus, for variadic
methods, the 17 forwarding wrappers; lines 229-335). -/
def method_gen_text (clsName : Str) (pre_entry_gc : Bool) (m : Method) :
    Except PyError Str := do
  let t ← trampoline_text clsName pre_entry_gc m
  if m.special_type = lit "variadic" then do
    let ws ← variadic_wrappers m
    pure (t ++ ws.flatten)
  else pure t

/-- The include line filename (lines 221-225): a `.cpp` input is
replaced by its header. -/
def includeName (f : Str) : Str :=
  if (lit ".cpp").isSuffixOf f then f.take (f.length - 3) ++ lit "h" else f

/-- The `ObjClass::Bind` name-dispatch entry point (lines 366-374). -/
def bind_text (classes : List Class) : Str :=
  lit "\n// Binding setup method, called by hand-written C++ classes\n" ++
  lit "void ObjClass::Bind(ObjClass *cls, const std::string &type, bool isMeta) \x7b\n" ++
  (classes.map (fun cls =>
    lit "\tif (type == \"" ++ cls.name ++ lit "\") \x7b\n" ++
    lit "\t\tregister_" ++ cls.name ++ lit "(cls, isMeta);\n" ++
    lit "\t\treturn;\n" ++
    lit "\t\x7d\n")).flatten ++
  lit "\terrors::wrenAbort(\"Unknown bindings class \x27%s\x27\", type.c_str());\n" ++
  lit "\x7d\n"

/-- One `fnDispatch{i}` forwarding function (lines 380-397). -/
def fn_dispatch_fn_text (i : Nat) : Str :=
  let arg_names := (List.range i).map (fun n => lit "v" ++ natToStr n)
  let args_decl := (arg_names.map (fun name => lit ", Value " ++ name)).flatten
  let arg_vals := joinSep (lit ", ") arg_names
  let args_sig := (List.replicate i (lit ",Value")).flatten
  let arg_vals_comma := if i ≠ 0 then lit ", " ++ arg_vals else arg_vals
  lit "static Value fnDispatch" ++ natToStr i ++
    lit "(void *fn, void *upvalues" ++ args_decl ++ lit ") \x7b\n" ++
  lit "\ttypedef Value (*withUpvalue)(void *upvalues" ++ args_sig ++ lit ");\n" ++
  lit "\ttypedef Value (*withoutUpvalue)(" ++ (args_sig.dropWhile (fun c => c = ',')) ++
    lit ");\n" ++
  lit "\tif (upvalues) \x7b\n" ++
  lit "\t\treturn ((withUpvalue)fn)(upvalues" ++ arg_vals_comma ++ lit ");\n" ++
  lit "\t\x7d\n" ++
  lit "\treturn ((withoutUpvalue)fn)(" ++ arg_vals ++ lit ");\n" ++
  lit "\x7d\n"

/-- The generic callable-value dispatch section (lines 376-407):
`max_args = 16 + 1` forwarders plus the `ObjFn::FunctionDispatch` entry
function. -/
def fn_dispatch_text : Str :=
  lit "\n// ObjFn variable-argument dispatch\n" ++
  ((List.range 17).map fn_dispatch_fn_text).flatten ++
  lit "Value ObjFn::FunctionDispatch(void *fn, void *upvalues, int arity, const std::initializer_list<Value> &args) \x7b\n" ++
  lit "\tconst Value *a = args.begin();\n" ++
  ((List.range 17).map (fun i =>
    let split_args := ((List.range i).map (fun n =>
      lit ", a[" ++ natToStr n ++ lit "]")).flatten
    lit "\tif (arity == " ++ natToStr i ++ lit ")\n" ++
    lit "\t\treturn fnDispatch" ++ natToStr i ++ lit "(fn, upvalues " ++ split_args ++
      lit ");\n")).flatten ++
  lit "\terrors::wrenAbort(\"Unsupported function arity: %d\", (int)args.size());\n" ++
  lit "\x7d\n"

/-- The full generator `generate` (lines 207-407), as a function of the
input files (filename and content lines, in order) and the
`pre_entry_gc` debug flag, producing the complete output text. -/
def generate (files : List (Str × List Str)) (pre_entry_gc : Bool) :
    Except PyError Str := do
  let classLists ← files.mapM (fun f => parse_file f.2)
  let classes := classLists.flatten
  let head0 :=
    lit "// Auto-generated file (from gen_bindings.py), DO NOT EDIT MANUALLY\n" ++
    lit "#define BINDINGS_GEN\n" ++
    lit "#include \"binding_utils.h\"\n" ++
    lit "#include \"Errors.h\"\n" ++
    lit "#include \"WrenRuntime.h\"\n"
  let includes := lit "\n// Includes for referenced files:\n" ++
    (files.map (fun f => lit "#include \"" ++ includeName f.1 ++ lit "\"\n")).flatten
  let clsTexts ← classes.mapM (fun cls => do
    let ms ← cls.methods.mapM (method_gen_text cls.name pre_entry_gc)
    let reg ← register_fn_text cls
    pure (lit "\n// For class " ++ cls.name ++ lit ":\n" ++ ms.flatten ++ reg))
  pure (head0 ++ includes ++ clsTexts.flatten ++ bind_text classes ++ fn_dispatch_text)

/-- The parent-name invariant of the `parse_file` loop: every method
already recorded belongs (by its `parent_class` back-reference) to the
class record holding it. -/
def StInv (st : ParseState) : Prop :=
  (∀ cls ∈ st.done, ∀ m ∈ cls.methods, m.parent_class = cls.name) ∧
  (∀ c, st.current = some c → ∀ m ∈ c.methods, m.parent_class = c.name)

example : Method.arity ⟨lit "void", lit "Foo", [], true, [], lit "ObjFoo"⟩ = .ok 0 := by decide

example :
    Method.arity ⟨lit "void", lit "Foo",
      [⟨lit "double", lit "x", 0, none⟩], false, [], lit "ObjNumClass"⟩ = .ok 0 := by decide

example :
    Method.signature ⟨lit "void", lit "OperatorPlus",
      [⟨lit "double", lit "x", 0, none⟩], false, [], lit "ObjFoo"⟩ = .ok (lit "+(_)") := by
  decide

example :
    Method.signature ⟨lit "void", lit "Bar",
      [⟨lit "double", lit "n", 0, none⟩, ⟨lit "int", lit "x", 1, none⟩],
      true, [], lit "ObjFoo"⟩ = .ok (lit "bar(_,_)") := by decide

example :
    Method.signature ⟨lit "Value", lit "OperatorSubscriptSet",
      [⟨lit "Value", lit "k", 0, none⟩, ⟨lit "Value", lit "v", 1, none⟩],
      false, [], lit "ObjMap"⟩ = .ok (lit "[_]=(_)") := by decide

example : classMatch (lit "class ObjFoo \x7b") = some (lit "ObjFoo") := by decide

example :
    methodMatch (lit "WREN_METHOD(variadic) void Foo();") =
      some ⟨lit "variadic", none, lit "void ", lit "Foo", []⟩ := by decide

example :
    methodMatch (lit "\tWREN_METHOD() static std::string Bar(double num, int x) const;") =
      some ⟨[], some (lit "static "), lit "std::string ", lit "Bar",
        lit "double num, int x"⟩ := by decide

example :
    methodMatch (lit "WREN_METHOD(getter) Obj *Next(ARG(\"The thing\") Obj *prev);") =
      some ⟨lit "getter", none, lit "Obj *", lit "Next",
        lit "ARG(\"The thing\") Obj *prev"⟩ := by decide

example : argMatch (lit " Obj *prev") = some (lit "Obj *", lit "prev") := by decide

example :
    parse_file [lit "class ObjFoo \x7b", lit "WREN_METHOD(variadic) void Foo();"] =
      .error .indexErr := by decide

example :
    parse_file [lit "class ObjFoo : public Obj \x7b",
        lit "\tWREN_METHOD() static int Bar(double num, int x); // comment"] =
      .ok [⟨lit "ObjFoo", [⟨lit "int", lit "Bar",
        [⟨lit "double", lit "num", 0, none⟩, ⟨lit "int", lit "x", 1, none⟩],
        true, [], lit "ObjFoo"⟩]⟩] := by decide

example :
    register_class_entries
      ⟨lit "ObjFoo", [⟨lit "void", lit "Bar",
        [⟨lit "double", lit "num", 0, none⟩, ⟨lit "int", lit "x", 1, none⟩],
        true, [], lit "ObjFoo"⟩]⟩ true =
      .ok [(lit "bar(_,_)", lit "binding_ObjFoo_Bar_2")] := by decide

example :
    call_stmt (lit "ObjFoo")
      ⟨lit "void", lit "Bar",
        [⟨lit "double", lit "num", 0, none⟩, ⟨lit "int", lit "x", 1, none⟩],
        true, [], lit "ObjFoo"⟩ =
      lit "\tObjFoo::Bar(typedArg0,typedArg1);\n" := by decide

example :
    method_reg_entries
      ⟨lit "void", lit "Call", [⟨lit "Value", lit "f", 0, none⟩],
        false, lit "variadic", lit "ObjFn"⟩ =
      .ok ((List.range 17).map (fun num =>
        (lit "call(" ++ underscores (1 + num) ++ lit ")",
         lit "binding_ObjFn_Call_1_va" ++ natToStr num))) := by decide

/-! Helper lemmas shared by the claim theorems. -/

theorem ok_bind {α β : Type} (a : α) (k : α → Except PyError β) :
    (Except.ok a >>= k) = k a := rfl

theorem err_bind {α β : Type} (e : PyError) (k : α → Except PyError β) :
    ((Except.error e : Except PyError α) >>= k) = .error e := rfl

theorem isPre_app (p s : Str) : p.isPrefixOf (p ++ s) = true := by
  induction p with
  | nil => simp [List.isPrefixOf]
  | cons a as ih => simp [List.isPrefixOf, ih]

theorem lookup_mem :
    ∀ (tbl : List (Str × Str)) (k v : Str), tbl.lookup k = some v → (k, v) ∈ tbl := by
  intro tbl
  induction tbl with
  | nil => intro k v h; simp [List.lookup] at h
  | cons p rest ih =>
    intro k v h
    obtain ⟨k', v'⟩ := p
    simp only [List.lookup] at h
    by_cases hk : k = k'
    · subst hk
      simp at h
      subst h
      exact List.mem_cons_self _ _
    · have hb : (k == k') = false := beq_false_of_ne hk
      rw [hb] at h
      exact List.mem_cons_of_mem _ (ih k v h)

theorem mapM_ok {α β : Type} (f : α → Except PyError β) (g : α → β) :
    ∀ (l : List α), (∀ x ∈ l, f x = .ok (g x)) → l.mapM f = .ok (l.map g) := by
  intro l
  induction l with
  | nil => intro _; rfl
  | cons a as ih =>
    intro h
    rw [List.mapM_cons, h a (List.mem_cons_self a as),
      ih (fun x hx => h x (List.mem_cons_of_mem a hx))]
    rfl

theorem arity_of_sig {m : Method} {s : Str} (h : m.signature = .ok s) :
    ∃ ar, m.arity = .ok ar := by
  unfold Method.signature at h
  cases har : m.arity with
  | error e => rw [har, err_bind] at h; cases h
  | ok ar => exact ⟨ar, rfl⟩

/-- C2: for a non-static method of the number class, `arity()` is the
declared-argument count minus one, and raises the generation error for
a zero-argument declaration; for every other method it is the
declared-argument count. -/
theorem C2_arity_spec (m : Method) :
    (m.parent_class = NUMBER_CLASS → m.static = false →
      (m.args.length = 0 →
        m.arity = .error (.exc (lit "Missing number class receiver for " ++ m.name))) ∧
      (∀ n, m.args.length = n + 1 → m.arity = .ok n)) ∧
    (m.parent_class ≠ NUMBER_CLASS ∨ m.static = true →
      m.arity = .ok m.args.length) := by
  constructor
  · intro h1 h2
    constructor
    · intro h0
      simp [Method.arity, h1, h2, h0]
    · intro n hn
      simp [Method.arity, h1, h2, hn]
  · intro h
    have hno : ¬(m.parent_class = NUMBER_CLASS ∧ m.static = false) := by
      rcases h with h | h
      · exact fun hc => h hc.1
      · intro hc
        rw [h] at hc
        exact Bool.noConfusion hc.2
    simp [Method.arity, hno]

/-- Witness for C2 at concrete inputs: a one-argument non-static
number-class method has arity 0, and a zero-argument one raises. -/
theorem C2_arity_spec_witness :
    Method.arity ⟨lit "void", lit "Fn", [⟨lit "double", lit "x", 0, none⟩],
      false, [], lit "ObjNumClass"⟩ = .ok 0 ∧
    Method.arity ⟨lit "void", lit "Fn", [], false, [], lit "ObjNumClass"⟩ =
      .error (.exc (lit "Missing number class receiver for " ++ lit "Fn")) := by
  constructor
  · exact ((C2_arity_spec ⟨lit "void", lit "Fn", [⟨lit "double", lit "x", 0, none⟩],
      false, [], lit "ObjNumClass"⟩).1 rfl rfl).2 0 rfl
  · exact ((C2_arity_spec ⟨lit "void", lit "Fn", [],
      false, [], lit "ObjNumClass"⟩).1 rfl rfl).1 rfl

/-- C1 counterexample: a static method keeps the `Value receiver`
parameter (the code suppresses it only for non-static number-class
methods), so the claim that the parameter is omitted whenever the
method is static is false at this input; the null class likewise keeps
the parameter. -/
theorem C1_counterexample :
    Method.static ⟨lit "void", lit "Bar", [], true, [], lit "ObjFoo"⟩ = true ∧
    receiver_def (lit "ObjFoo")
      ⟨lit "void", lit "Bar", [], true, [], lit "ObjFoo"⟩ = lit "Value receiver" ∧
    receiver_def NULL_CLASS
      ⟨lit "void", lit "Baz", [], false, [], NULL_CLASS⟩ = lit "Value receiver" ∧
    lit "Value receiver" ≠ ([] : Str) := by decide

/-- C1 (amended): the trampoline parameter list omits the implicit
receiver parameter exactly when the method belongs to the number class
and is non-static; in every other case (static methods and the null
class included) the parameter list starts with the boxed receiver. -/
theorem C1_amended (clsName : Str) (m : Method) :
    (receiver_def clsName m = [] ↔ clsName = NUMBER_CLASS ∧ m.static = false) ∧
    (¬(clsName = NUMBER_CLASS ∧ m.static = false) →
      (lit "Value receiver").isPrefixOf (trampoline_params clsName m) = true) := by
  by_cases h : clsName = NUMBER_CLASS ∧ m.static = false
  · constructor
    · simp [receiver_def, h]
    · intro hc; exact absurd h hc
  · constructor
    · simp only [receiver_def, if_neg h]
      constructor
      · intro hv; cases hv
      · intro hc; exact absurd hc h
    · intro _
      unfold trampoline_params
      rw [receiver_def, if_neg h]
      exact isPre_app _ _

/-- Witness for C1 (amended) at concrete inputs. -/
theorem C1_amended_witness :
    (lit "Value receiver").isPrefixOf
      (trampoline_params (lit "ObjFoo")
        ⟨lit "void", lit "Bar", [], true, [], lit "ObjFoo"⟩) = true := by
  exact (C1_amended (lit "ObjFoo")
    ⟨lit "void", lit "Bar", [], true, [], lit "ObjFoo"⟩).2 (by decide)

/-- C5 counterexample: an argument named `value` declared without an
`ARG("...")` annotation gets the diagnostic label `Value` (Python
`str.capitalize()` of the name), not the declared name `value`, both in
the label computation and in the emitted coercion call. -/
theorem C5_counterexample :
    argErrorName ⟨lit "double", lit "value", 0, none⟩ = lit "Value" ∧
    lit "Value" ≠ lit "value" ∧
    castExpr (lit "ObjFoo.foo(_)") 0 ⟨lit "double", lit "value", 0, none⟩ =
      .ok (lit "checkDouble(\"ObjFoo.foo(_)\", \"Value\", 1, arg0)") := by decide

/-- C5 (amended): for an argument without an `ARG("...")` annotation the
diagnostic label is the declared name with its first character
upper-cased and the remaining characters lower-cased (Python
`str.capitalize()`), and that label is what the emitted coercion call
carries. -/
theorem C5_amended (a : Arg) (dsig : Str) (i : Nat) (h : a.error_name = none) :
    argErrorName a = pyCapitalize a.name ∧
    (a.type = lit "double" →
      castExpr dsig i a = .ok (lit "checkDouble(\"" ++ dsig ++ lit "\", \"" ++
        pyCapitalize a.name ++ lit "\", " ++ natToStr (i + 1) ++ lit ", " ++
        a.raw_name ++ lit ")")) := by
  constructor
  · simp [argErrorName, h]
  · intro ht
    unfold castExpr
    rw [ht]
    simp [argErrorName, h, lit]

/-- Witness for C5 (amended) at a concrete argument. -/
theorem C5_amended_witness :
    castExpr (lit "ObjX.m(_)") 0 ⟨lit "double", lit "numBits", 0, none⟩ =
      .ok (lit "checkDouble(\"" ++ lit "ObjX.m(_)" ++ lit "\", \"" ++
        pyCapitalize (lit "numBits") ++ lit "\", " ++ natToStr 1 ++ lit ", " ++
        Arg.raw_name ⟨lit "double", lit "numBits", 0, none⟩ ++ lit ")") := by
  exact (C5_amended ⟨lit "double", lit "numBits", 0, none⟩ (lit "ObjX.m(_)") 0 rfl).2 rfl

/-- C8: the generator is deterministic — equal input files (same
contents, same order) and an equal debug flag produce byte-identical
output text. -/
theorem C8_deterministic (files₁ files₂ : List (Str × List Str)) (gc₁ gc₂ : Bool)
    (hf : files₁ = files₂) (hg : gc₁ = gc₂) :
    generate files₁ gc₁ = generate files₂ gc₂ := by
  rw [hf, hg]

/-- Witness for C8 at a concrete input. -/
theorem C8_deterministic_witness :
    generate [(lit "foo.cpp", [lit "class ObjFoo \x7b",
      lit "\tWREN_METHOD() static int Bar(double num, int x);"])] true =
    generate [(lit "foo.cpp", [lit "class ObjFoo \x7b",
      lit "\tWREN_METHOD() static int Bar(double num, int x);"])] true :=
  C8_deterministic _ _ _ _ rfl rfl

theorem table_sym_id :
    ∀ (k v : Str), OPERATOR_TYPES.lookup k = some v →
      ∃ c rest, v = c :: rest ∧ c.toLower :: rest = v ∧
        '(' ∉ v ∧ ')' ∉ v ∧ '_' ∉ v := by
  intro k v hl
  have hm := lookup_mem _ _ _ hl
  have hall : ∀ p ∈ OPERATOR_TYPES,
      p.2 ≠ [] ∧ p.2.headI.toLower :: p.2.tail = p.2 ∧
        '(' ∉ p.2 ∧ ')' ∉ p.2 ∧ '_' ∉ p.2 := by decide
  have h2 := hall _ hm
  rcases hv : v with _ | ⟨c, rest⟩
  · rw [hv] at h2; exact absurd rfl h2.1
  · rw [hv] at h2
    refine ⟨c, rest, rfl, ?_, h2.2.2.1, h2.2.2.2.1, h2.2.2.2.2⟩
    simpa using h2.2.1

/-- C4 counterexample: a getter-kind method named with a recognized
operator suffix returns the bare operator symbol, not the symbol
wrapped with one placeholder per arity (here arity 1, so the claim
demands `+(_)`). -/
theorem C4_counterexample :
    Method.special_type ⟨lit "Value", lit "OperatorPlus",
      [⟨lit "Value", lit "x", 0, none⟩], false, lit "getter", lit "ObjFoo"⟩ =
      lit "getter" ∧
    Method.arity ⟨lit "Value", lit "OperatorPlus",
      [⟨lit "Value", lit "x", 0, none⟩], false, lit "getter", lit "ObjFoo"⟩ = .ok 1 ∧
    Method.signature ⟨lit "Value", lit "OperatorPlus",
      [⟨lit "Value", lit "x", 0, none⟩], false, lit "getter", lit "ObjFoo"⟩ =
      .ok (lit "+") ∧
    lit "+" ≠ lit "+(_)" := by decide

/-- C4 (amended): for every method whose name is the operator name
prefix followed by a suffix (and is neither reserved subscript name)
and whose arity computation succeeds, `signature()` raises the
generation error naming the owning class and method if and only if the
suffix is absent from the fixed table: when the suffix is present it
succeeds, returning the table symbol wrapped with one placeholder per
arity for non-getter kinds and the bare unwrapped symbol for the
getter kind; when the suffix is absent it raises, getter kind
included. -/
theorem C4_amended (m : Method) (suff : Str) (ar : Nat)
    (hname : m.name = opNamePre ++ suff)
    (hns : m.name ≠ OPERATOR_SUBSCRIPT) (hnss : m.name ≠ OPERATOR_SUBSCRIPT_SET)
    (har : m.arity = .ok ar) :
    (∀ sym, OPERATOR_TYPES.lookup suff = some sym → m.special_type ≠ lit "getter" →
      m.signature = .ok (sym ++ lit "(" ++ underscores ar ++ lit ")")) ∧
    (∀ sym, OPERATOR_TYPES.lookup suff = some sym → m.special_type = lit "getter" →
      m.signature = .ok sym) ∧
    (OPERATOR_TYPES.lookup suff = none →
      m.signature = .error (.exc (lit "Invalid operator name " ++ m.parent_class ++
        lit "::" ++ m.name))) := by
  have hpre : opNamePre.isPrefixOf m.name = true := by
    rw [hname]; exact isPre_app _ _
  have hdrop : m.name.drop opNamePre.length = suff := by
    rw [hname]; exact List.drop_left _ _
  have hsub : ¬(m.name = OPERATOR_SUBSCRIPT ∨ m.name = OPERATOR_SUBSCRIPT_SET) := by
    rintro (h | h)
    · exact hns h
    · exact hnss h
  refine ⟨?_, ?_, ?_⟩
  · intro sym hl hget
    obtain ⟨c, rest, hv, hlow, -, -, -⟩ := table_sym_id suff sym hl
    unfold Method.signature
    rw [har, ok_bind, if_neg hsub, hpre, hdrop, hl]
    simp only [if_true]
    rw [hv, ok_bind]
    simp only
    rw [if_neg hget, ← hv, hlow]
    rfl
  · intro sym hl hget
    obtain ⟨c, rest, hv, hlow, -, -, -⟩ := table_sym_id suff sym hl
    unfold Method.signature
    rw [har, ok_bind, if_neg hsub, hpre, hdrop, hl]
    simp only [if_true]
    rw [hv, ok_bind]
    simp only
    rw [if_pos hget, ← hv, hlow]
    rfl
  · intro hl
    unfold Method.signature
    rw [har, ok_bind, if_neg hsub, hpre, hdrop, hl]
    simp only [if_true]
    rw [err_bind]

/-- Witness for C4 (amended) at concrete operator methods: a plain one
(wrapped symbol), a getter one (bare symbol), and an unknown suffix
(the named generation error). -/
theorem C4_amended_witness :
    Method.signature ⟨lit "Value", lit "OperatorPlus",
      [⟨lit "Value", lit "x", 0, none⟩], false, [], lit "ObjFoo"⟩ =
      .ok (lit "+" ++ lit "(" ++ underscores 1 ++ lit ")") ∧
    Method.signature ⟨lit "Value", lit "OperatorBitwiseNegate",
      [⟨lit "Value", lit "x", 0, none⟩], false, lit "getter", lit "ObjBar"⟩ =
      .ok (lit "~") ∧
    Method.signature ⟨lit "Value", lit "OperatorFoo", [], true,
      lit "getter", lit "ObjBar"⟩ =
      .error (.exc (lit "Invalid operator name " ++ lit "ObjBar" ++ lit "::" ++
        lit "OperatorFoo")) := by
  refine ⟨?_, ?_, ?_⟩
  · exact (C4_amended ⟨lit "Value", lit "OperatorPlus",
        [⟨lit "Value", lit "x", 0, none⟩], false, [], lit "ObjFoo"⟩
      (lit "Plus") 1 rfl (by decide) (by decide) rfl).1 (lit "+") rfl (by decide)
  · exact (C4_amended ⟨lit "Value", lit "OperatorBitwiseNegate",
        [⟨lit "Value", lit "x", 0, none⟩], false, lit "getter", lit "ObjBar"⟩
      (lit "BitwiseNegate") 1 rfl (by decide) (by decide) rfl).2.1 (lit "~") rfl rfl
  · exact (C4_amended ⟨lit "Value", lit "OperatorFoo", [], true,
        lit "getter", lit "ObjBar"⟩
      (lit "Foo") 0 rfl (by decide) (by decide) rfl).2.2 (by decide)

/-- C6 counterexample: a getter-kind method named with the reserved
subscript-set name takes the subscript branch first, so its signature
contains both parentheses and placeholders. -/
theorem C6_counterexample :
    Method.special_type ⟨lit "Value", lit "OperatorSubscriptSet",
      [⟨lit "Value", lit "k", 0, none⟩, ⟨lit "Value", lit "v", 1, none⟩],
      false, lit "getter", lit "ObjMap"⟩ = lit "getter" ∧
    Method.signature ⟨lit "Value", lit "OperatorSubscriptSet",
      [⟨lit "Value", lit "k", 0, none⟩, ⟨lit "Value", lit "v", 1, none⟩],
      false, lit "getter", lit "ObjMap"⟩ = .ok (lit "[_]=(_)") ∧
    '(' ∈ lit "[_]=(_)" ∧ '_' ∈ lit "[_]=(_)" := by decide

/-- C6 (amended): a getter-kind method not named with either reserved
subscript name has as signature the bare resolved name with nothing
appended — the operator symbol (which contains no parentheses or
underscores) when the name carries the operator name prefix, otherwise
the declared name with only its first character lower-cased. -/
theorem C6_amended (m : Method) (s : Str)
    (hget : m.special_type = lit "getter")
    (hns : m.name ≠ OPERATOR_SUBSCRIPT) (hnss : m.name ≠ OPERATOR_SUBSCRIPT_SET)
    (hsig : m.signature = .ok s) :
    (opNamePre.isPrefixOf m.name = true →
      ∃ sym, OPERATOR_TYPES.lookup (m.name.drop opNamePre.length) = some sym ∧
        s = sym ∧ '(' ∉ s ∧ ')' ∉ s ∧ '_' ∉ s) ∧
    (opNamePre.isPrefixOf m.name = false →
      ∃ c rest, m.name = c :: rest ∧ s = c.toLower :: rest) := by
  obtain ⟨ar, har⟩ := arity_of_sig hsig
  have hsub : ¬(m.name = OPERATOR_SUBSCRIPT ∨ m.name = OPERATOR_SUBSCRIPT_SET) := by
    rintro (h | h)
    · exact hns h
    · exact hnss h
  unfold Method.signature at hsig
  rw [har, ok_bind, if_neg hsub] at hsig
  constructor
  · intro hpre
    rw [hpre] at hsig
    simp only [if_true] at hsig
    cases hl : OPERATOR_TYPES.lookup (m.name.drop opNamePre.length) with
    | none => rw [hl, err_bind] at hsig; cases hsig
    | some sym =>
      obtain ⟨c, rest, hv, hlow, hp1, hp2, hp3⟩ := table_sym_id _ sym hl
      rw [hl, ok_bind, hv] at hsig
      simp only at hsig
      rw [if_pos hget] at hsig
      have hs : s = c.toLower :: rest := by
        cases hsig; rfl
      rw [hlow] at hs
      exact ⟨sym, rfl, hs, hs ▸ hp1, hs ▸ hp2, hs ▸ hp3⟩
  · intro hpre
    rw [hpre] at hsig
    simp only [Bool.false_eq_true, if_false] at hsig
    rw [ok_bind] at hsig
    cases hnm : m.name with
    | nil =>
      rw [hnm] at hsig
      simp only at hsig
      cases hsig
    | cons c rest =>
      rw [hnm] at hsig
      simp only at hsig
      rw [if_pos hget] at hsig
      cases hsig
      exact ⟨c, rest, rfl, rfl⟩

/-- Witness for C6 (amended) at a concrete operator getter method. -/
theorem C6_amended_witness :
    ∃ sym, OPERATOR_TYPES.lookup
        ((Method.name ⟨lit "Value", lit "OperatorMinus", [], false, lit "getter",
          lit "ObjFoo"⟩).drop opNamePre.length) = some sym ∧
      lit "-" = sym ∧ '(' ∉ lit "-" ∧ ')' ∉ lit "-" ∧ '_' ∉ lit "-" :=
  (C6_amended ⟨lit "Value", lit "OperatorMinus", [], false, lit "getter",
      lit "ObjFoo"⟩ (lit "-") rfl (by decide) (by decide) (by decide)).1 (by decide)

theorem regFilterAux (isMeta : Bool) (ms : List Method) :
    ((ms.mapM (fun m =>
        if (if m.static then isMeta else !isMeta) then method_reg_entries m
        else pure [])) >>=
      (fun ls => pure ls.flatten) : Except PyError (List (Str × Str))) =
    (((ms.filter (fun m => m.static == isMeta)).mapM method_reg_entries) >>=
      (fun ls => pure ls.flatten)) := by
  induction ms with
  | nil => rfl
  | cons m ms ih =>
    have hg : (if m.static then isMeta else !isMeta) = (m.static == isMeta) := by
      cases m.static <;> cases isMeta <;> rfl
    rw [List.mapM_cons, List.filter_cons, hg]
    by_cases hsm : (m.static == isMeta) = true
    · rw [hsm]
      simp only [if_true]
      rw [List.mapM_cons]
      cases hE : method_reg_entries m with
      | error e => rfl
      | ok es =>
        cases hx : ms.mapM (fun m =>
            if (if m.static then isMeta else !isMeta) then method_reg_entries m
            else pure ([] : List (Str × Str))) with
        | error e1 =>
          cases hy : (ms.filter (fun m => m.static == isMeta)).mapM method_reg_entries with
          | error e2 =>
            rw [hx, hy] at ih
            simp only [err_bind] at ih
            injection ih with h
            rw [h]
          | ok ys =>
            rw [hx, hy] at ih
            exact Except.noConfusion ih
        | ok xs =>
          cases hy : (ms.filter (fun m => m.static == isMeta)).mapM method_reg_entries with
          | error e2 =>
            rw [hx, hy] at ih
            exact Except.noConfusion ih
          | ok ys =>
            rw [hx, hy] at ih
            have hfl : xs.flatten = ys.flatten := by
              injection ih
            show (pure ((es :: xs).flatten) : Except PyError (List (Str × Str))) =
              pure ((es :: ys).flatten)
            simp [List.flatten_cons, hfl]
    · have hsm' : (m.static == isMeta) = false := by
        simpa using hsm
      rw [hsm']
      simp only [Bool.false_eq_true, if_false]
      cases hx : ms.mapM (fun m =>
          if (if m.static then isMeta else !isMeta) then method_reg_entries m
          else pure ([] : List (Str × Str))) with
      | error e1 => rw [hx] at ih; exact ih
      | ok xs => rw [hx] at ih; exact ih

/-- C7: the generated registration function registers exactly the
entries of the gate-matching methods — static methods when `isMeta` is true,
non-static methods when it is false; and concretely, a class `ObjFoo`
with a static plain method `Bar(double, int)` registers
`binding_ObjFoo_Bar_2` under the signature `bar(_,_)` in the meta pass
only, with a trampoline that calls `ObjFoo::Bar` on the two coerced
(`checkDouble`, `checkInt`) arguments. -/
theorem C7_registration_gating :
    (∀ (cls : Class) (isMeta : Bool),
      register_class_entries cls isMeta = (do
        let ls ← (cls.methods.filter (fun m => m.static == isMeta)).mapM
          method_reg_entries
        pure ls.flatten)) ∧
    register_class_entries ⟨lit "ObjFoo", [⟨lit "void", lit "Bar",
        [⟨lit "double", lit "num", 0, none⟩, ⟨lit "int", lit "x", 1, none⟩],
        true, [], lit "ObjFoo"⟩]⟩ true =
      .ok [(lit "bar(_,_)", lit "binding_ObjFoo_Bar_2")] ∧
    register_class_entries ⟨lit "ObjFoo", [⟨lit "void", lit "Bar",
        [⟨lit "double", lit "num", 0, none⟩, ⟨lit "int", lit "x", 1, none⟩],
        true, [], lit "ObjFoo"⟩]⟩ false = .ok [] ∧
    Method.signature ⟨lit "void", lit "Bar",
        [⟨lit "double", lit "num", 0, none⟩, ⟨lit "int", lit "x", 1, none⟩],
        true, [], lit "ObjFoo"⟩ = .ok (lit "bar(_,_)") ∧
    call_stmt (lit "ObjFoo") ⟨lit "void", lit "Bar",
        [⟨lit "double", lit "num", 0, none⟩, ⟨lit "int", lit "x", 1, none⟩],
        true, [], lit "ObjFoo"⟩ = lit "\tObjFoo::Bar(typedArg0,typedArg1);\n" ∧
    castExpr (lit "ObjFoo.bar(_,_)") 0 ⟨lit "double", lit "num", 0, none⟩ =
      .ok (lit "checkDouble(\"ObjFoo.bar(_,_)\", \"Num\", 1, arg0)") ∧
    castExpr (lit "ObjFoo.bar(_,_)") 1 ⟨lit "int", lit "x", 1, none⟩ =
      .ok (lit "checkInt(\"ObjFoo.bar(_,_)\", \"X\", 2, arg1)") := by
  refine ⟨?_, by decide, by decide, by decide, by decide, by decide, by decide⟩
  intro cls isMeta
  unfold register_class_entries
  exact regFilterAux isMeta cls.methods

theorem und_zero : underscores 0 = [] := rfl

theorem und_one : underscores 1 = lit "_" := rfl

theorem und_succ2 (k : Nat) :
    underscores (k + 2) = lit "_" ++ lit "," ++ underscores (k + 1) := rfl

theorem sig_len {m : Method} {s : Str} (hget : m.special_type ≠ lit "getter")
    (hsig : m.signature = .ok s) : 2 ≤ s.length := by
  obtain ⟨ar, har⟩ := arity_of_sig hsig
  unfold Method.signature at hsig
  rw [har, ok_bind] at hsig
  by_cases hsubs : m.name = OPERATOR_SUBSCRIPT ∨ m.name = OPERATOR_SUBSCRIPT_SET
  · rw [if_pos hsubs] at hsig
    by_cases hset : m.name = OPERATOR_SUBSCRIPT_SET
    · rw [if_pos hset] at hsig
      cases hsig
      simp [lit]
    · rw [if_neg hset] at hsig
      cases hsig
      simp [lit]
  · rw [if_neg hsubs] at hsig
    by_cases hpre : opNamePre.isPrefixOf m.name = true
    · rw [hpre] at hsig
      simp only [if_true] at hsig
      cases hl : OPERATOR_TYPES.lookup (m.name.drop opNamePre.length) with
      | none => rw [hl, err_bind] at hsig; cases hsig
      | some sym =>
        obtain ⟨ch, rest, hv, -, -, -, -⟩ := table_sym_id _ sym hl
        rw [hl, ok_bind, hv] at hsig
        simp only at hsig
        rw [if_neg hget] at hsig
        cases hsig
        simp [lit]
        omega
    · have hpre' : opNamePre.isPrefixOf m.name = false := Bool.eq_false_iff.mpr hpre
      rw [hpre'] at hsig
      simp only [Bool.false_eq_true, if_false] at hsig
      rw [ok_bind] at hsig
      cases hnm : m.name with
      | nil =>
        rw [hnm] at hsig
        simp only at hsig
        cases hsig
      | cons ch rest =>
        rw [hnm] at hsig
        simp only at hsig
        rw [if_neg hget] at hsig
        cases hsig
        simp [lit]
        omega

theorem reg_signature_eq (m : Method) (s : Str) (l : Char) (num : Nat)
    (hsig : m.signature = .ok s) (hl : s.dropLast.getLast? = some l) :
    reg_signature m num =
      .ok ((if num ≠ 0 ∧ l = '_' then s.dropLast ++ lit "," else s.dropLast) ++
        underscores num ++ lit ")") := by
  unfold reg_signature
  rw [hsig, ok_bind]
  cases num with
  | zero => simp [hl]
  | succ k => simp [hl]

theorem reg_sig_shape (m : Method) (s : Str) (hsig : m.signature = .ok s)
    (hlen : 2 ≤ s.length) :
    ∃ stem c, ∀ num,
      reg_signature m num = .ok (stem ++ underscores (c + num) ++ lit ")") := by
  have hinit : s.dropLast ≠ [] := by
    have hld : s.dropLast.length = s.length - 1 := List.length_dropLast s
    intro hcon
    rw [hcon] at hld
    simp at hld
    omega
  have hgl : s.dropLast.getLast? = some (s.dropLast.getLast hinit) :=
    List.getLast?_eq_getLast _ hinit
  by_cases hu : s.dropLast.getLast hinit = '_'
  · refine ⟨s.dropLast.dropLast, 1, ?_⟩
    intro num
    rw [reg_signature_eq m s _ num hsig (hu ▸ hgl)]
    generalize hstem : s.dropLast.dropLast = stem
    have hsplit : stem ++ lit "_" = s.dropLast := by
      rw [← hstem]
      have h1 := List.dropLast_append_getLast hinit
      rw [hu] at h1
      exact h1
    rw [← hsplit]
    cases num with
    | zero =>
      simp only [ne_eq, not_true_eq_false, false_and, if_false, und_zero,
        List.append_nil, Nat.add_zero, und_one]
    | succ k =>
      have hcond : (k + 1 ≠ 0 ∧ ('_' : Char) = '_') := ⟨Nat.succ_ne_zero k, rfl⟩
      rw [if_pos hcond]
      have harith : 1 + (k + 1) = k + 2 := by omega
      rw [harith, und_succ2]
      simp [List.append_assoc]
  · refine ⟨s.dropLast, 0, ?_⟩
    intro num
    rw [reg_signature_eq m s _ num hsig hgl]
    have hcond : ¬(num ≠ 0 ∧ s.dropLast.getLast hinit = '_') := fun hc => hu hc.2
    rw [if_neg hcond]
    simp

/-- C3: every variadic method generates exactly 17 fixed-arity
forwarding wrappers, and its registration function registers exactly 17
signatures, one per added trailing count 0..16, each of the shape
`stem` + (c + num) placeholders + `)` for a fixed stem — i.e. differing
from the others only in the number of trailing underscore
placeholders. -/
theorem C3_variadic_fanout (m : Method) (s : Str)
    (hvar : m.special_type = lit "variadic") (hsig : m.signature = .ok s) :
    ∃ (mn stem : Str) (c : Nat) (ws : List Str),
      m.method_name = .ok mn ∧
      variadic_wrappers m = .ok ws ∧ ws.length = 17 ∧
      method_reg_entries m =
        .ok ((List.range 17).map (fun num =>
          (stem ++ underscores (c + num) ++ lit ")",
           mn ++ lit "_va" ++ natToStr num))) ∧
      ((List.range 17).map (fun num =>
          (stem ++ underscores (c + num) ++ lit ")",
           mn ++ lit "_va" ++ natToStr num))).length = 17 := by
  obtain ⟨ar, har⟩ := arity_of_sig hsig
  have hget : m.special_type ≠ lit "getter" := by
    rw [hvar]; decide
  obtain ⟨stem, c, hreg⟩ := reg_sig_shape m s hsig (sig_len hget hsig)
  have hmn : m.method_name = .ok (lit "binding_" ++ m.parent_class ++ lit "_" ++
      m.name ++ lit "_" ++ natToStr ar) := by
    unfold Method.method_name
    rw [har, ok_bind]
    rfl
  refine ⟨_, stem, c,
    (List.range 17).map (fun num =>
      lit "static Value " ++ (lit "binding_" ++ m.parent_class ++ lit "_" ++
        m.name ++ lit "_" ++ natToStr ar) ++ lit "_va" ++ natToStr num ++ lit "(" ++
      (lit "Value r" ++
        ((List.range num).map (fun n => lit ",Value a" ++ natToStr n)).flatten) ++
      lit ") \x7b " ++
      (lit "return " ++ (lit "binding_" ++ m.parent_class ++ lit "_" ++ m.name ++
        lit "_" ++ natToStr ar) ++ lit "(r, \x7b " ++
        joinSep (lit ",") ((List.range num).map (fun n => lit "a" ++ natToStr n)) ++
        lit " \x7d);") ++
      lit " \x7d\n"),
    hmn, ?_, ?_, ?_, ?_⟩
  · unfold variadic_wrappers
    exact mapM_ok _ _ _ (fun num _ => by
      unfold variadic_wrapper_text
      rw [hmn, ok_bind]
      rfl)
  · simp
  · unfold method_reg_entries
    rw [hmn, ok_bind, if_pos hvar]
    exact mapM_ok _ _ _ (fun num _ => by
      rw [hreg num, ok_bind]
      rfl)
  · simp

/-- Witness for C3 at a concrete variadic method. -/
theorem C3_variadic_fanout_witness :
    ∃ (mn stem : Str) (c : Nat) (ws : List Str),
      Method.method_name ⟨lit "Value", lit "Call", [⟨lit "Value", lit "f", 0, none⟩],
        false, lit "variadic", lit "ObjFn"⟩ = .ok mn ∧
      variadic_wrappers ⟨lit "Value", lit "Call", [⟨lit "Value", lit "f", 0, none⟩],
        false, lit "variadic", lit "ObjFn"⟩ = .ok ws ∧ ws.length = 17 ∧
      method_reg_entries ⟨lit "Value", lit "Call", [⟨lit "Value", lit "f", 0, none⟩],
        false, lit "variadic", lit "ObjFn"⟩ =
        .ok ((List.range 17).map (fun num =>
          (stem ++ underscores (c + num) ++ lit ")",
           mn ++ lit "_va" ++ natToStr num))) ∧
      ((List.range 17).map (fun num =>
          (stem ++ underscores (c + num) ++ lit ")",
           mn ++ lit "_va" ++ natToStr num))).length = 17 :=
  C3_variadic_fanout ⟨lit "Value", lit "Call", [⟨lit "Value", lit "f", 0, none⟩],
      false, lit "variadic", lit "ObjFn"⟩ (lit "call(_)") rfl (by decide)

theorem pure_bind_exc {α β : Type} (a : α) (k : α → Except PyError β) :
    ((pure a : Except PyError α) >>= k) = k a := rfl

theorem methodMatch_nil : methodMatch ([] : Str) = none := rfl

/-- C9: a variadic method declaration with an empty argument list makes
the unguarded `args.pop()` underflow, so processing such a line always
fails with the `IndexError`-class failure (never a named generation
error, never acceptance) — shown for an arbitrary parser state, plus a
concrete whole-file run. -/
theorem C9_variadic_empty_pop :
    (∀ (st : ParseState) (raw : Str) (md : MethodMatch),
      classMatch (pyStrip (takeBefore2Slash raw)) = none →
      methodMatch (pyStrip (takeBefore2Slash raw)) = some md →
      md.type = lit "variadic" → md.args = [] →
      parseLine st raw = .error .indexErr) ∧
    parse_file [lit "class ObjFoo \x7b", lit "WREN_METHOD(variadic) void Foo();"] =
      .error .indexErr := by
  constructor
  · intro st raw md hclass hmeth htype hargs
    have hne : pyStrip (takeBefore2Slash raw) ≠ [] := by
      intro h0
      rw [h0, methodMatch_nil] at hmeth
      cases hmeth
    simp only [parseLine]
    rw [if_neg hne, hclass]
    simp only
    rw [hmeth]
    simp only
    rw [htype, hargs]
    rw [if_pos (show lit "variadic" = ([] : Str) ∨ lit "variadic" = lit "getter" ∨
      lit "variadic" = lit "variadic" from Or.inr (Or.inr rfl))]
    rw [if_pos rfl, pure_bind_exc, if_pos rfl]
    rfl
  · decide

/-- Witness for C9 universal part at a concrete state and line. -/
theorem C9_variadic_empty_pop_witness :
    parseLine ⟨[], none⟩ (lit "WREN_METHOD(variadic) void G();") = .error .indexErr :=
  C9_variadic_empty_pop.1 ⟨[], none⟩ (lit "WREN_METHOD(variadic) void G();")
    ⟨lit "variadic", none, lit "void ", lit "G", []⟩ (by decide) (by decide) rfl rfl

theorem parseLine_inv {st st' : ParseState} {raw : Str}
    (h : parseLine st raw = .ok st') (hinv : StInv st) : StInv st' := by
  simp only [parseLine] at h
  by_cases hline : pyStrip (takeBefore2Slash raw) = []
  · rw [if_pos hline] at h
    injection h with h'
    subst h'
    exact hinv
  · rw [if_neg hline] at h
    cases hcm : classMatch (pyStrip (takeBefore2Slash raw)) with
    | some nm =>
      rw [hcm] at h
      simp only at h
      injection h with h'
      subst h'
      constructor
      · intro cls hcls m hm
        unfold ParseState.finish at hcls
        rcases List.mem_append.mp hcls with hc | hc
        · exact hinv.1 cls hc m hm
        · cases hcur : st.current with
          | none => rw [hcur] at hc; simp at hc
          | some c =>
            rw [hcur] at hc
            simp at hc
            subst hc
            exact hinv.2 _ hcur m hm
      · intro c hc m hm
        injection hc with hc'
        rw [← hc'] at hm
        simp at hm
    | none =>
      rw [hcm] at h
      simp only at h
      cases hmm : methodMatch (pyStrip (takeBefore2Slash raw)) with
      | none =>
        rw [hmm] at h
        simp only at h
        injection h with h'
        subst h'
        exact hinv
      | some md =>
        rw [hmm] at h
        simp only at h
        by_cases hkind : md.type = [] ∨ md.type = lit "getter" ∨
            md.type = lit "variadic"
        · rw [if_pos hkind] at h
          by_cases hargs : md.args = []
          · rw [if_pos hargs, pure_bind_exc] at h
            by_cases hvar : md.type = lit "variadic"
            · rw [if_pos hvar] at h
              exact Except.noConfusion h
            · rw [if_neg hvar, ok_bind] at h
              cases hcur : st.current with
              | none => rw [hcur] at h; exact Except.noConfusion h
              | some c =>
                rw [hcur] at h
                simp only at h
                injection h with h'
                subst h'
                refine ⟨hinv.1, ?_⟩
                intro c' hc' m hm
                injection hc' with hc''
                subst hc''
                show m.parent_class = c.name
                rcases List.mem_append.mp hm with hold | hnew
                · exact hinv.2 c hcur m hold
                · rw [List.mem_singleton] at hnew
                  subst hnew
                  rfl
          · rw [if_neg hargs] at h
            cases ha0 : (splitOnChar ',' md.args).foldlM
                (parseArgPiece st.current md.name) [] with
            | error e => rw [ha0, err_bind] at h; cases h
            | ok args0 =>
              rw [ha0, ok_bind] at h
              by_cases hvar : md.type = lit "variadic"
              · rw [if_pos hvar] at h
                cases hg : args0.getLast? with
                | none =>
                  rw [hg] at h
                  exact Except.noConfusion h
                | some a =>
                  rw [hg] at h
                  simp only at h
                  rw [ok_bind] at h
                  cases hcur : st.current with
                  | none => rw [hcur] at h; exact Except.noConfusion h
                  | some c =>
                    rw [hcur] at h
                    simp only at h
                    injection h with h'
                    subst h'
                    refine ⟨hinv.1, ?_⟩
                    intro c' hc' m hm
                    injection hc' with hc''
                    subst hc''
                    show m.parent_class = c.name
                    rcases List.mem_append.mp hm with hold | hnew
                    · exact hinv.2 c hcur m hold
                    · rw [List.mem_singleton] at hnew
                      subst hnew
                      rfl
              · rw [if_neg hvar, ok_bind] at h
                cases hcur : st.current with
                | none => rw [hcur] at h; exact Except.noConfusion h
                | some c =>
                  rw [hcur] at h
                  simp only at h
                  injection h with h'
                  subst h'
                  refine ⟨hinv.1, ?_⟩
                  intro c' hc' m hm
                  injection hc' with hc''
                  subst hc''
                  show m.parent_class = c.name
                  rcases List.mem_append.mp hm with hold | hnew
                  · exact hinv.2 c hcur m hold
                  · rw [List.mem_singleton] at hnew
                    subst hnew
                    rfl
        · rw [if_neg hkind] at h
          cases hcur : st.current with
          | none => rw [hcur] at h; exact Except.noConfusion h
          | some c => rw [hcur] at h; exact Except.noConfusion h

theorem foldlM_inv :
    ∀ (lines : List Str) (st st' : ParseState),
      lines.foldlM parseLine st = .ok st' → StInv st → StInv st' := by
  intro lines
  induction lines with
  | nil =>
    intro st st' h hi
    simp only [List.foldlM_nil] at h
    injection h with h'
    subst h'
    exact hi
  | cons l ls ih =>
    intro st st' h hi
    rw [List.foldlM_cons] at h
    cases hpl : parseLine st l with
    | error e => rw [hpl, err_bind] at h; cases h
    | ok st1 => rw [hpl, ok_bind] at h; exact ih st1 st' h (parseLine_inv hpl hi)

theorem splitOnChar_ne_nil (c : Char) : ∀ s, splitOnChar c s ≠ [] := by
  intro s
  induction s with
  | nil => simp [splitOnChar]
  | cons x xs ih =>
    unfold splitOnChar
    cases h : splitOnChar c xs with
    | nil => simp
    | cons y ys => by_cases hx : x = c <;> simp [hx]

theorem parseArgPiece_none (mname : Str) (acc : List Arg) (p : Str) :
    parseArgPiece none mname acc p = .error .attributeErr ∨
    ∃ a, parseArgPiece none mname acc p = .ok (acc ++ [a]) := by
  unfold parseArgPiece
  cases argInfoMatch p with
  | none =>
    simp only
    cases argMatch p with
    | none => left; rfl
    | some pr =>
      obtain ⟨tyG, nmG⟩ := pr
      right
      exact ⟨_, rfl⟩
  | some pr =>
    obtain ⟨g0, label⟩ := pr
    simp only
    cases argMatch (pyStrip (p.drop g0.length)) with
    | none => left; rfl
    | some pr2 =>
      obtain ⟨tyG, nmG⟩ := pr2
      right
      exact ⟨_, rfl⟩

theorem argPieces_none (mname : Str) :
    ∀ (pieces : List Str) (acc : List Arg),
      pieces.foldlM (parseArgPiece none mname) acc = .error .attributeErr ∨
      ∃ l, pieces.foldlM (parseArgPiece none mname) acc = .ok l ∧
        l.length = acc.length + pieces.length := by
  intro pieces
  induction pieces with
  | nil =>
    intro acc
    right
    refine ⟨acc, rfl, by simp⟩
  | cons p ps ih =>
    intro acc
    rw [List.foldlM_cons]
    rcases parseArgPiece_none mname acc p with herr | ⟨a, hok⟩
    · left
      rw [herr, err_bind]
    · rw [hok, ok_bind]
      rcases ih (acc ++ [a]) with herr | ⟨l, hl, hlen⟩
      · left; exact herr
      · right
        refine ⟨l, hl, ?_⟩
        rw [hlen]
        simp
        omega

/-- C10 counterexample: a method-declaration line before any
class-boundary line does not always fail with the null-dereference
(`AttributeError`) failure — a variadic declaration with an empty
argument list underflows the tail pop first, failing with the
`IndexError` failure instead. -/
theorem C10_counterexample :
    parse_file [lit "WREN_METHOD(variadic) void Foo();"] = .error .indexErr ∧
    PyError.indexErr ≠ PyError.attributeErr := by decide

/-- C10 (amended): every method `parse_file` successfully returns
carries as parent the class record holding it (the most recently opened
class); and a method-declaration line processed with no class open
fails with the null-dereference (`AttributeError`) failure, except that
a variadic declaration with an empty argument list underflows the tail
pop first and fails with the `IndexError` failure. -/
theorem C10_amended :
    (∀ (lines : List Str) (classes : List Class),
      parse_file lines = .ok classes →
      ∀ cls ∈ classes, ∀ m ∈ cls.methods, m.parent_class = cls.name) ∧
    (∀ (st : ParseState) (raw : Str) (md : MethodMatch),
      st.current = none →
      classMatch (pyStrip (takeBefore2Slash raw)) = none →
      methodMatch (pyStrip (takeBefore2Slash raw)) = some md →
      (parseLine st raw = .error .attributeErr ∨
       (md.type = lit "variadic" ∧ md.args = [] ∧
        parseLine st raw = .error .indexErr))) := by
  constructor
  · intro lines classes h cls hcls m hm
    unfold parse_file at h
    cases hf : lines.foldlM parseLine ⟨[], none⟩ with
    | error e => rw [hf, err_bind] at h; cases h
    | ok st =>
      rw [hf, ok_bind] at h
      injection h with h'
      subst h'
      have hinv : StInv st := foldlM_inv lines ⟨[], none⟩ st hf
        (by constructor <;> simp [StInv])
      unfold ParseState.finish at hcls
      rcases List.mem_append.mp hcls with hc | hc
      · exact hinv.1 cls hc m hm
      · cases hcur : st.current with
        | none => rw [hcur] at hc; simp at hc
        | some c =>
          rw [hcur] at hc
          simp at hc
          subst hc
          exact hinv.2 _ hcur m hm
  · intro st raw md hcur hclass hmeth
    have hne : pyStrip (takeBefore2Slash raw) ≠ [] := by
      intro h0
      rw [h0, methodMatch_nil] at hmeth
      cases hmeth
    simp only [parseLine]
    rw [if_neg hne, hclass]
    simp only
    rw [hmeth]
    simp only
    rw [hcur]
    by_cases hkind : md.type = [] ∨ md.type = lit "getter" ∨ md.type = lit "variadic"
    · rw [if_pos hkind]
      by_cases hargs : md.args = []
      · rw [hargs, if_pos rfl, pure_bind_exc]
        by_cases hvar : md.type = lit "variadic"
        · right
          refine ⟨hvar, rfl, ?_⟩
          rw [if_pos hvar]
          rfl
        · left
          rw [if_neg hvar, ok_bind]
      · rw [if_neg hargs]
        rcases argPieces_none md.name (splitOnChar ',' md.args) [] with herr | ⟨l, hok, hlen⟩
        · left
          rw [herr, err_bind]
        · rw [hok, ok_bind]
          have hl0 : l ≠ [] := by
            have hp := splitOnChar_ne_nil ',' md.args
            have hp' : 0 < (splitOnChar ',' md.args).length := List.length_pos.mpr hp
            intro hcon
            rw [hcon] at hlen
            simp at hlen
            omega
          by_cases hvar : md.type = lit "variadic"
          · left
            rw [if_pos hvar, List.getLast?_eq_getLast l hl0]
            rfl
          · left
            rw [if_neg hvar, ok_bind]
    · rw [if_neg hkind]
      left
      rfl

/-- Witness for C10 (amended) at a concrete state and line. -/
theorem C10_amended_witness :
    parseLine ⟨[], none⟩ (lit "WREN_METHOD() void H(int x);") =
        .error .attributeErr ∨
      (MethodMatch.type ⟨[], none, lit "void ", lit "H", lit "int x"⟩ =
          lit "variadic" ∧
        MethodMatch.args ⟨[], none, lit "void ", lit "H", lit "int x"⟩ = [] ∧
        parseLine ⟨[], none⟩ (lit "WREN_METHOD() void H(int x);") =
          .error .indexErr) :=
  C10_amended.2 ⟨[], none⟩ (lit "WREN_METHOD() void H(int x);")
    ⟨[], none, lit "void ", lit "H", lit "int x"⟩ rfl (by decide) (by decide)

end GenBindings
